import Mathlib

/-!
Verification development for the lean-cli Execution Plan Builder and the
Brokerage/DataFeed Capability Registry.

The registry definitions are shallow embeddings of
`lean/models/brokerages/local/__init__.py`.  The Execution Plan Builder
(`run_lean`) is not part of the sources at hand, so its behaviour is modelled
from the specification (each such definition carries a
`Modelled from the spec:` doc comment).
-/

namespace LeanCLI

/-! ## Brokerage / DataFeed Capability Registry
Embedded from `lean/models/brokerages/local/__init__.py`. -/

/-- The closed set of local brokerages registered in
`all_local_brokerages` (`__init__.py` lines 29-38). -/
inductive LocalBrokerage where
  | PaperTradingBrokerage
  | InteractiveBrokersBrokerage
  | TradierBrokerage
  | OANDABrokerage
  | BitfinexBrokerage
  | CoinbaseProBrokerage
  | BinanceBrokerage
  | ZerodhaBrokerage
  deriving DecidableEq, Repr, Fintype

/-- The closed set of local data feeds appearing in
`all_local_data_feeds` plus the platform-gated `IQFeedDataFeed`. -/
inductive DataFeed where
  | InteractiveBrokersDataFeed
  | TradierDataFeed
  | OANDADataFeed
  | BitfinexDataFeed
  | CoinbaseProDataFeed
  | BinanceDataFeed
  | ZerodhaDataFeed
  | IQFeedDataFeed
  deriving DecidableEq, Repr, Fintype

/-- `all_local_brokerages` (`__init__.py` lines 29-38). -/
def all_local_brokerages : List LocalBrokerage :=
  [.PaperTradingBrokerage,
   .InteractiveBrokersBrokerage,
   .TradierBrokerage,
   .OANDABrokerage,
   .BitfinexBrokerage,
   .CoinbaseProBrokerage,
   .BinanceBrokerage,
   .ZerodhaBrokerage]

/-- The literal `all_local_data_feeds` list as written at
`__init__.py` lines 40-48, before the conditional append at line 68. -/
def base_all_local_data_feeds : List DataFeed :=
  [.InteractiveBrokersDataFeed,
   .TradierDataFeed,
   .OANDADataFeed,
   .BitfinexDataFeed,
   .CoinbaseProDataFeed,
   .BinanceDataFeed,
   .ZerodhaDataFeed]

/-- The gate of `__init__.py` line 67:
`platform.system() == "Windows" or os.environ.get("__README__", "false") == "true"`.
`isWindows` is the value of the host-platform predicate and `envFlag` the
value of the environment opt-in comparison, both fixed at process start. -/
def iqfeedGate (isWindows envFlag : Bool) : Bool :=
  isWindows || envFlag

/-- `all_local_data_feeds` as it stands after module initialisation:
the literal list of lines 40-48, with `IQFeedDataFeed` appended by line 68
exactly when the line-67 gate holds. -/
def all_local_data_feeds (isWindows envFlag : Bool) : List DataFeed :=
  if iqfeedGate isWindows envFlag then
    base_all_local_data_feeds ++ [.IQFeedDataFeed]
  else
    base_all_local_data_feeds

/-- The dict literal `local_brokerage_data_feeds` of `__init__.py`
lines 50-65, as an ordered association list (Python dicts preserve
insertion order). -/
def base_local_brokerage_data_feeds : List (LocalBrokerage × List DataFeed) :=
  [(.PaperTradingBrokerage,
    [.InteractiveBrokersDataFeed,
     .TradierDataFeed,
     .OANDADataFeed,
     .BitfinexDataFeed,
     .CoinbaseProDataFeed,
     .BinanceDataFeed,
     .ZerodhaDataFeed]),
   (.InteractiveBrokersBrokerage, [.InteractiveBrokersDataFeed]),
   (.TradierBrokerage, [.TradierDataFeed]),
   (.OANDABrokerage, [.OANDADataFeed]),
   (.BitfinexBrokerage, [.BitfinexDataFeed]),
   (.CoinbaseProBrokerage, [.CoinbaseProDataFeed]),
   (.BinanceBrokerage, [.BinanceDataFeed]),
   (.ZerodhaBrokerage, [.ZerodhaDataFeed])]

/-- `local_brokerage_data_feeds` as it stands after module initialisation:
the dict literal of lines 50-65, with `IQFeedDataFeed` appended to the
`PaperTradingBrokerage` entry by line 69 exactly when the line-67 gate
holds. -/
def local_brokerage_data_feeds (isWindows envFlag : Bool) :
    List (LocalBrokerage × List DataFeed) :=
  if iqfeedGate isWindows envFlag then
    base_local_brokerage_data_feeds.map
      (fun entry =>
        if entry.1 = .PaperTradingBrokerage then
          (entry.1, entry.2 ++ [.IQFeedDataFeed])
        else entry)
  else
    base_local_brokerage_data_feeds

/-- The data feed defined in the same integration module as a brokerage
(`binance.py` pairs `BinanceBrokerage` with `BinanceDataFeed`, and so on);
the default `PaperTradingBrokerage` has no data feed of its own. -/
def ownDataFeed : LocalBrokerage → Option DataFeed
  | .PaperTradingBrokerage => none
  | .InteractiveBrokersBrokerage => some .InteractiveBrokersDataFeed
  | .TradierBrokerage => some .TradierDataFeed
  | .OANDABrokerage => some .OANDADataFeed
  | .BitfinexBrokerage => some .BitfinexDataFeed
  | .CoinbaseProBrokerage => some .CoinbaseProDataFeed
  | .BinanceBrokerage => some .BinanceDataFeed
  | .ZerodhaBrokerage => some .ZerodhaDataFeed

/-- Modelled from the spec: the registry lookup
`compatibleDataFeeds(brokerage)` (spec section 4.2); the lookup function
itself is not among the sources at hand, only the table it reads.  It
returns the brokerage's entry in the registry and the empty sequence for
an unregistered brokerage, never an error. -/
def compatibleDataFeeds (registry : List (LocalBrokerage × List DataFeed))
    (brokerage : LocalBrokerage) : List DataFeed :=
  match registry.find? (fun entry => entry.1 = brokerage) with
  | some entry => entry.2
  | none => []

/-! ## Host path model -/

/-- A host filesystem path: an absolute-flag plus the list of name
components.  Joining a relative path appends components; an absolute path
resolves to itself. -/
structure HostPath where
  absolute : Bool
  parts : List String
  deriving DecidableEq, Repr

/-- Append relative components to a path. -/
def HostPath.joinRel (base : HostPath) (rel : List String) : HostPath :=
  ⟨base.absolute, base.parts ++ rel⟩

/-- Resolve `p` against `base`: an absolute `p` is used as-is, a relative
`p` is joined onto `base`. -/
def HostPath.resolveAgainst (base p : HostPath) : HostPath :=
  if p.absolute then p else base.joinRel p.parts

/-! ## Host filesystem model -/

/-- A filesystem entry: a directory or a file with its byte content. -/
inductive Entry where
  | dir
  | file (content : String)
  deriving DecidableEq, Repr

/-- A host filesystem: an association list from paths to entries. -/
def FS : Type := List (HostPath × Entry)

/-- Look up the entry at a path. -/
def FS.lookup : FS → HostPath → Option Entry
  | [], _ => none
  | e :: rest, p => if e.1 = p then some e.2 else FS.lookup rest p

/-- Write an entry at a path: replace the existing binding in place, or
append a new one. -/
def FS.write : FS → HostPath → Entry → FS
  | [], p, v => [(p, v)]
  | e :: rest, p, v => if e.1 = p then (p, v) :: rest else e :: FS.write rest p v

/-- Modelled from the spec: directory creation, idempotent — create the
directory only if nothing exists at the path (spec step 4.1.2). -/
def FS.createDir (fs : FS) (p : HostPath) : FS :=
  match fs.lookup p with
  | some _ => fs
  | none => fs.write p .dir

/-! ## Plan Builder data model -/

/-- Project language, derived from the entry file's extension
(spec step 4.1.1). -/
inductive Language where
  | python
  | csharp
  deriving DecidableEq, Repr

/-- Run mode (spec section 3, RunRequest). -/
inductive RunMode where
  | backtesting
  | live
  | research
  | optimization
  deriving DecidableEq, Repr

/-- Debugging backend (spec section 3; absence is `Option.none` at use
sites). -/
inductive DebuggingMethod where
  | ptvsd
  | vsdbg
  | rider
  deriving DecidableEq, Repr

/-- A configuration mapping fragment restricted to path-valued keys, as an
association list (first binding wins on lookup). -/
def Config : Type := List (String × HostPath)

/-- First-binding-wins lookup in a configuration fragment. -/
def Config.lookup : Config → String → Option HostPath
  | [], _ => none
  | kv :: rest, k => if kv.1 = k then some kv.2 else Config.lookup rest k

/-- Modelled from the spec: merged-configuration lookup — the
caller-supplied overlay takes precedence over the persisted configuration
(spec step 4.1.3; the persisted and registry-contributed layers are folded
into `base` by the Path & Config Resolver collaborator). -/
def mergedLookup (base overlay : Config) (k : String) : Option HostPath :=
  match overlay.lookup k with
  | some v => some v
  | none => base.lookup k

/-- A single-file bind mount: host source path and container target path. -/
structure Mount where
  Source : HostPath
  Target : String
  deriving DecidableEq, Repr

/-- A directory volume binding: host directory, container bind path,
access mode. -/
structure Volume where
  host : HostPath
  bind : String
  mode : String
  deriving DecidableEq, Repr

/-- The compiled container execution plan (spec section 3,
ExecutionPlan). -/
structure ExecutionPlan where
  image : String
  commands : List String
  environment : List (String × String)
  mounts : List Mount
  volumes : List Volume
  ports : List (String × String)
  containerName : Option String
  detach : Bool
  deriving DecidableEq, Repr

/-- Paths and persisted configuration supplied by the Path & Config
Resolver collaborator (spec section 4.3). -/
structure ResolvedPaths where
  cliRootDir : HostPath
  dataDir : HostPath
  projectDir : HostPath
  baseConfig : Config

/-- The per-invocation run request (spec section 3, RunRequest).
`projectFiles` models the project's source tree as relative component
paths with file contents; `fromSnapshot` records whether the run executes
from the copied snapshot directory (spec step 4.1.4). -/
structure RunRequest where
  configOverlay : Config
  runMode : RunMode
  entryFile : HostPath
  outputDirectory : HostPath
  engineImage : String
  debuggingMethod : Option DebuggingMethod
  release : Bool
  detach : Bool
  projectFiles : List (List String × String)
  fromSnapshot : Bool

/-! ## String containment helper -/

/-- `segIn sub l` decides whether `sub` occurs as a contiguous segment of
`l`. -/
def segIn (sub : List Char) : List Char → Bool
  | [] => sub.isEmpty
  | c :: rest => sub.isPrefixOf (c :: rest) || segIn sub rest

/-- `strIn sub s` decides whether the string `sub` occurs as a contiguous
substring of `s`. -/
def strIn (sub s : String) : Bool :=
  segIn sub.data s.data

/-- `strStarts pre s` decides whether `s` starts with `pre`. -/
def strStarts (pre s : String) : Bool :=
  pre.data.isPrefixOf s.data

/-- `strEnds suf s` decides whether `s` ends with `suf`. -/
def strEnds (suf s : String) : Bool :=
  suf.data.isSuffixOf s.data

/-! ## Plan Builder steps, modelled from the spec -/

/-- Modelled from the spec: project language detection — derive the
language from the entry file's extension, `.py` means interpreted and
`.cs` means compiled (spec step 4.1.1).  The `run_lean` implementation is
not among the sources at hand. -/
def detectLanguage (entryFile : HostPath) : Option Language :=
  match entryFile.parts.getLast? with
  | some name =>
      if strEnds ".py" name then some .python
      else if strEnds ".cs" name then some .csharp
      else none
  | none => none

/-- Modelled from the spec: copy the project's source tree into the
snapshot directory, one write per file (spec step 4.1.2). -/
def copyFiles (codeDir : HostPath) (files : List (List String × String))
    (fs : FS) : FS :=
  files.foldl (fun acc rc => acc.write (codeDir.joinRel rc.1) (.file rc.2)) fs

/-- Modelled from the spec: output directory provisioning — create the
output directory and its `code` subdirectory if absent, then copy the
project's source tree into `outputDirectory/code` (spec step 4.1.2). -/
def provisionOutput (outputDir : HostPath)
    (files : List (List String × String)) (fs : FS) : FS :=
  copyFiles (outputDir.joinRel ["code"]) files
    ((fs.createDir outputDir).createDir (outputDir.joinRel ["code"]))

/-- Modelled from the spec: the per-project `storage` subdirectory is
created under the project root if absent, for interpreted projects
(spec step 4.1.5). -/
def provisionStorage (paths : ResolvedPaths) (lang : Language) (fs : FS) : FS :=
  match lang with
  | .python => fs.createDir (paths.projectDir.joinRel ["storage"])
  | .csharp => fs

/-- Modelled from the spec: the launch command runs the engine's native
launcher via its managed runtime; it never names the user's script
(spec steps 4.1.4). -/
def launchCommand : String :=
  "cd /Lean/Launcher/bin/Debug && dotnet QuantConnect.Lean.Launcher.dll"

/-- Modelled from the spec: the compiled-project build command, with
`Configuration=Release` when `release` is true else `Configuration=Debug`
(spec step 4.1.4). -/
def buildCommand (release : Bool) : String :=
  "dotnet build /p:Configuration=" ++
    (if release then "Release" else "Debug") ++ " /LeanCLI"

/-- Modelled from the spec: the interpreted-project byte-compile command
over the snapshot directory (spec step 4.1.4). -/
def byteCompileCommand : String :=
  "if [ -d /LeanCLI ]; then python -m compileall /LeanCLI; fi"

/-- Modelled from the spec: command sequence generation, language
dependent (spec step 4.1.4). -/
def generateCommands (lang : Language) (release fromSnapshot : Bool) :
    List String :=
  match lang with
  | .csharp => [buildCommand release, launchCommand]
  | .python =>
      (if fromSnapshot then [byteCompileCommand] else []) ++ [launchCommand]

/-- Modelled from the spec: volume assembly — always bind the data
directory to `/Lean/Data` and the output directory to `/Results`; for
interpreted projects additionally bind the project root to the fixed
container path `/LeanCLI` and its `storage` subdirectory to `/Storage`
(spec step 4.1.5). -/
def assembleVolumes (paths : ResolvedPaths) (outputDir : HostPath)
    (lang : Language) : List Volume :=
  [⟨paths.dataDir, "/Lean/Data", "rw"⟩, ⟨outputDir, "/Results", "rw"⟩] ++
    match lang with
    | .python =>
        [⟨paths.projectDir, "/LeanCLI", "rw"⟩,
         ⟨paths.projectDir.joinRel ["storage"], "/Storage", "rw"⟩]
    | .csharp => []

/-- The auxiliary-file configuration key for the symbol-map file. -/
def symbolMapKey : String := "terminal-link-symbol-map-file"

/-- The auxiliary-file configuration key for the transaction-log file. -/
def transactionLogKey : String := "transaction-log"

/-- The auxiliary-file keys the Plan Builder resolves to single-file
mounts (spec step 4.1.6). -/
def auxFileKeys : List String := [symbolMapKey, transactionLogKey]

/-- Modelled from the spec: the key-specific base directory against which
a relative auxiliary path is resolved — the data directory's
`symbol-properties` subfolder for the symbol-map file, the CLI root
directory for the transaction-log file (spec step 4.1.6). -/
def auxBaseDir (paths : ResolvedPaths) (key : String) : HostPath :=
  if key = symbolMapKey then paths.dataDir.joinRel ["symbol-properties"]
  else paths.cliRootDir

/-- Modelled from the spec: single-file mount resolution — for each
auxiliary key present in the merged configuration, mount the configured
path (absolute as-is, relative resolved against the key-specific base
directory) at `/Files/<key>` (spec step 4.1.6). -/
def auxFileMounts (paths : ResolvedPaths) (cfg : String → Option HostPath) :
    List Mount :=
  auxFileKeys.filterMap (fun key =>
    (cfg key).map (fun p =>
      ⟨(auxBaseDir paths key).resolveAgainst p, "/Files/" ++ key⟩))

/-- Modelled from the spec: the merged configuration is written to a file
and mounted read-only at the engine's fixed config path
(spec step 4.1.8). -/
def configFileMount (outputDir : HostPath) : Mount :=
  ⟨outputDir.joinRel ["config.json"], "/Lean/Launcher/config.json"⟩

/-- Modelled from the spec: debugger port wiring — PTVSD exposes debug
port 5678 on the same host port; Rider maps the container's SSH port 22
to alternate host port 2222 (spec step 4.1.7). -/
def debugPorts : Option DebuggingMethod → List (String × String)
  | some .ptvsd => [("5678", "5678")]
  | some .rider => [("22", "2222")]
  | _ => []

/-- Modelled from the spec: VSDBG requires a stable, addressable
container and sets a fixed container name (spec step 4.1.7). -/
def debugContainerName : Option DebuggingMethod → Option String
  | some .vsdbg => some "lean_cli_vsdbg"
  | _ => none

/-- Modelled from the spec: assembly of the full execution plan from the
resolved paths, the run request and the detected language
(spec steps 4.1.3 - 4.1.8). -/
def buildPlan (paths : ResolvedPaths) (req : RunRequest) (lang : Language) :
    ExecutionPlan where
  image := req.engineImage
  commands := generateCommands lang req.release req.fromSnapshot
  environment := []
  mounts :=
    configFileMount req.outputDirectory ::
      auxFileMounts paths (mergedLookup paths.baseConfig req.configOverlay)
  volumes := assembleVolumes paths req.outputDirectory lang
  ports := debugPorts req.debuggingMethod
  containerName := debugContainerName req.debuggingMethod
  detach := req.detach

/-- The Plan Builder's error taxonomy as visible to its caller: the
opaque `runFailure` (spec section 7) and a rejection of an entry file
whose extension determines no language (spec step 4.1.1). -/
inductive RunError where
  | runFailure
  | unsupportedEntryFile
  deriving DecidableEq, Repr

/-- The observable outcome of one `buildAndRun` invocation: the returned
or raised result, the final host filesystem, and the ordered list of
plans passed to the Container Runtime Adapter (one element per adapter
invocation). -/
structure RunOutput where
  result : Except RunError Unit
  fs : FS
  adapterCalls : List ExecutionPlan

/-- Modelled from the spec: `buildAndRun` (`run_lean`) — detect the
language, provision the output snapshot and storage directories, build
the plan, hand it to the Container Runtime Adapter exactly once, and
raise `runFailure` if the adapter reports failure (spec section 4.1;
`adapterResult` is the boolean the adapter reports). -/
def buildAndRun (paths : ResolvedPaths) (req : RunRequest) (fs : FS)
    (adapterResult : Bool) : RunOutput :=
  match detectLanguage req.entryFile with
  | none => ⟨.error .unsupportedEntryFile, fs, []⟩
  | some lang =>
      let fs1 := provisionOutput req.outputDirectory req.projectFiles fs
      let fs2 := provisionStorage paths lang fs1
      let plan := buildPlan paths req lang
      ⟨if adapterResult then .ok () else .error .runFailure, fs2, [plan]⟩

/-- A concrete resolver result used to evaluate the model on explicit
inputs. -/
def samplePaths : ResolvedPaths where
  cliRootDir := ⟨true, ["home", "cli"]⟩
  dataDir := ⟨true, ["home", "cli", "data"]⟩
  projectDir := ⟨true, ["home", "cli", "Python Project"]⟩
  baseConfig := []

/-- A concrete interpreted-project run request used to evaluate the model
on explicit inputs. -/
def sampleReq : RunRequest where
  configOverlay := [(transactionLogKey, ⟨false, ["transaction-log.log"]⟩)]
  runMode := .backtesting
  entryFile := ⟨true, ["home", "cli", "Python Project", "main.py"]⟩
  outputDirectory := ⟨true, ["home", "cli", "output"]⟩
  engineImage := "quantconnect/lean:latest"
  debuggingMethod := none
  release := false
  detach := false
  projectFiles := [(["main.py"], "class Algo: pass"), (["research.ipynb"], "cells")]
  fromSnapshot := true

/-- A concrete compiled-project run request used to evaluate the model on
explicit inputs. -/
def sampleReqCs : RunRequest where
  configOverlay := []
  runMode := .backtesting
  entryFile := ⟨true, ["home", "cli", "CSharp Project", "Main.cs"]⟩
  outputDirectory := ⟨true, ["home", "cli", "output"]⟩
  engineImage := "quantconnect/lean:latest"
  debuggingMethod := none
  release := true
  detach := false
  projectFiles := [(["Main.cs"], "class Algo : QCAlgorithm")]
  fromSnapshot := false

/-! ## Filesystem lemmas -/

theorem HostPath.ne_of_parts_length {p q : HostPath}
    (h : p.parts.length ≠ q.parts.length) : p ≠ q :=
  fun hc => h (by rw [hc])

theorem FS.lookup_write_self (fs : FS) (p : HostPath) (v : Entry) :
    (fs.write p v).lookup p = some v := by
  induction fs with
  | nil => simp [FS.write, FS.lookup]
  | cons e rest ih =>
      by_cases h : e.1 = p
      · simp [FS.write, h, FS.lookup]
      · simp [FS.write, h, FS.lookup, ih]

theorem FS.lookup_write_ne (fs : FS) (p q : HostPath) (v : Entry)
    (h : q ≠ p) : (fs.write p v).lookup q = fs.lookup q := by
  induction fs with
  | nil => simp [FS.write, FS.lookup, Ne.symm h]
  | cons e rest ih =>
      by_cases he : e.1 = p
      · simp [FS.write, FS.lookup, he, Ne.symm h]
      · simp [FS.write, he, FS.lookup, ih]

theorem FS.write_of_lookup_eq (fs : FS) (p : HostPath) (v : Entry)
    (h : fs.lookup p = some v) : fs.write p v = fs := by
  induction fs with
  | nil => simp [FS.lookup] at h
  | cons e rest ih =>
      by_cases he : e.1 = p
      · simp [FS.lookup, he] at h
        simp [FS.write, he]
        rw [← he, ← h]
      · simp [FS.lookup, he] at h
        simp [FS.write, he, ih h]

theorem FS.lookup_createDir_self (fs : FS) (p : HostPath) :
    ∃ e, (fs.createDir p).lookup p = some e := by
  unfold FS.createDir
  cases h : fs.lookup p with
  | some e => exact ⟨e, h⟩
  | none => exact ⟨.dir, FS.lookup_write_self fs p .dir⟩

theorem FS.lookup_createDir_of_some (fs : FS) (p q : HostPath) (e : Entry)
    (h : fs.lookup q = some e) : (fs.createDir p).lookup q = some e := by
  unfold FS.createDir
  cases hp : fs.lookup p with
  | some _ => exact h
  | none =>
      have hq : q ≠ p := fun hc => by rw [hc, hp] at h; cases h
      rw [FS.lookup_write_ne fs p q .dir hq]
      exact h

theorem FS.createDir_of_lookup_some (fs : FS) (p : HostPath) (e : Entry)
    (h : fs.lookup p = some e) : fs.createDir p = fs := by
  unfold FS.createDir
  rw [h]

theorem copyFiles_cons (codeDir : HostPath) (rc : List String × String)
    (rest : List (List String × String)) (fs : FS) :
    copyFiles codeDir (rc :: rest) fs
      = copyFiles codeDir rest (fs.write (codeDir.joinRel rc.1) (.file rc.2)) :=
  rfl

theorem copyFiles_lookup_not_target (codeDir : HostPath)
    (files : List (List String × String)) (fs : FS) (q : HostPath)
    (h : ∀ rc ∈ files, codeDir.joinRel rc.1 ≠ q) :
    (copyFiles codeDir files fs).lookup q = fs.lookup q := by
  induction files generalizing fs with
  | nil => rfl
  | cons rc rest ih =>
      rw [copyFiles_cons,
          ih _ (fun x hx => h x (List.mem_cons_of_mem _ hx)),
          FS.lookup_write_ne _ _ _ _
            (fun hc => (h rc (List.mem_cons_self _ _)) hc.symm)]

theorem copyFiles_lookup_mem (codeDir : HostPath)
    (files : List (List String × String)) (fs : FS)
    (rel : List String) (c : String)
    (hnd : (files.map (fun rc => codeDir.joinRel rc.1)).Nodup)
    (hmem : (rel, c) ∈ files) :
    (copyFiles codeDir files fs).lookup (codeDir.joinRel rel)
      = some (.file c) := by
  induction files generalizing fs with
  | nil => cases hmem
  | cons rc rest ih =>
      rw [List.map_cons, List.nodup_cons] at hnd
      rcases List.mem_cons.mp hmem with heq | hmem
      · cases heq.symm
        have hnt : ∀ x ∈ rest, codeDir.joinRel x.1 ≠ codeDir.joinRel rel := by
          intro x hx hc
          apply hnd.1
          rw [← hc]
          exact List.mem_map_of_mem _ hx
        rw [copyFiles_cons, copyFiles_lookup_not_target _ _ _ _ hnt]
        exact FS.lookup_write_self _ _ _
      · exact ih _ hnd.2 hmem

theorem copyFiles_of_lookup (codeDir : HostPath)
    (files : List (List String × String)) (fs : FS)
    (h : ∀ rc ∈ files, fs.lookup (codeDir.joinRel rc.1) = some (.file rc.2)) :
    copyFiles codeDir files fs = fs := by
  induction files with
  | nil => rfl
  | cons rc rest ih =>
      rw [copyFiles_cons,
          FS.write_of_lookup_eq _ _ _ (h rc (List.mem_cons_self _ _))]
      exact ih (fun x hx => h x (List.mem_cons_of_mem _ hx))

/-! ## Registry claims -/

/-- Claim C8: in the CompatibilityRegistry as built at process start,
every brokerage other than the default paper-trading brokerage maps to
exactly one data feed (its own), the default paper-trading brokerage maps
to every registered data feed in the fixed display order, and the
platform/environment-gated IQFeed data feed is a member of both the
global data-feed list and the default brokerage's compatible list (as the
appended last element) if and only if the host-platform predicate or the
explicit opt-in environment flag holds at process start. -/
theorem C8_registry_construction :
    ∀ isWindows envFlag : Bool,
      (∀ b : LocalBrokerage, b ≠ .PaperTradingBrokerage →
        ∃ f, ownDataFeed b = some f ∧
          compatibleDataFeeds (local_brokerage_data_feeds isWindows envFlag) b
            = [f]) ∧
      compatibleDataFeeds (local_brokerage_data_feeds isWindows envFlag)
          .PaperTradingBrokerage
        = all_local_data_feeds isWindows envFlag ∧
      ((DataFeed.IQFeedDataFeed ∈ all_local_data_feeds isWindows envFlag) ↔
        iqfeedGate isWindows envFlag = true) ∧
      ((DataFeed.IQFeedDataFeed ∈
          compatibleDataFeeds (local_brokerage_data_feeds isWindows envFlag)
            .PaperTradingBrokerage) ↔
        iqfeedGate isWindows envFlag = true) ∧
      (iqfeedGate isWindows envFlag = true →
        all_local_data_feeds isWindows envFlag
          = base_all_local_data_feeds ++ [DataFeed.IQFeedDataFeed]) ∧
      (iqfeedGate isWindows envFlag = false →
        all_local_data_feeds isWindows envFlag = base_all_local_data_feeds) := by
  decide

/-- Witness for C8 at a concrete gate value and brokerage. -/
theorem C8_registry_construction_witness :
    ∃ f, ownDataFeed .BinanceBrokerage = some f ∧
      compatibleDataFeeds (local_brokerage_data_feeds true false)
        .BinanceBrokerage = [f] :=
  (C8_registry_construction true false).1 .BinanceBrokerage (by decide)

/-- Claim C9: the registry lookup `compatibleDataFeeds` returns a
non-empty sequence for every registered brokerage (in the registry as
built, for either gate value, every brokerage of the closed set is
registered), and returns the empty sequence — never a runtime error —
for a brokerage that is not a key of the registry. -/
theorem C9_lookup_contract :
    (∀ isWindows envFlag : Bool, ∀ b : LocalBrokerage,
      compatibleDataFeeds (local_brokerage_data_feeds isWindows envFlag) b
        ≠ []) ∧
    (∀ registry : List (LocalBrokerage × List DataFeed),
      ∀ b : LocalBrokerage,
        (∀ entry ∈ registry, entry.1 ≠ b) →
          compatibleDataFeeds registry b = []) := by
  constructor
  · decide
  · intro registry b h
    unfold compatibleDataFeeds
    have hf : registry.find? (fun entry => decide (entry.1 = b)) = none := by
      rw [List.find?_eq_none]
      intro x hx
      simpa using h x hx
    rw [hf]

/-- Witness for C9 at a concrete unregistered brokerage. -/
theorem C9_lookup_contract_witness :
    compatibleDataFeeds
      [(.BinanceBrokerage, [.BinanceDataFeed])] .TradierBrokerage = [] :=
  C9_lookup_contract.2 [(.BinanceBrokerage, [.BinanceDataFeed])]
    .TradierBrokerage (by decide)

/-- Claim C10: in the registry as built at process start, the default
paper-trading brokerage's compatible data-feed sequence equals the global
registered data-feed list `all_local_data_feeds` element for element and
in order, for every value of the IQFeed gate (the gated entry is appended
to both lists or to neither). -/
theorem C10_default_equals_global :
    ∀ isWindows envFlag : Bool,
      compatibleDataFeeds (local_brokerage_data_feeds isWindows envFlag)
          .PaperTradingBrokerage
        = all_local_data_feeds isWindows envFlag := by
  decide

/-! ## Plan Builder claims -/

/-- Claim C1: for every `buildAndRun` invocation (on an entry file whose
extension determines a language), the Container Runtime Adapter is
invoked exactly once — no retry — and if the adapter reports failure the
Builder raises `runFailure`. -/
theorem C1_adapter_once_and_failure_raises (paths : ResolvedPaths)
    (req : RunRequest) (fs : FS) (adapterResult : Bool) (lang : Language)
    (hlang : detectLanguage req.entryFile = some lang) :
    (buildAndRun paths req fs adapterResult).adapterCalls.length = 1 ∧
    (adapterResult = false →
      (buildAndRun paths req fs adapterResult).result
        = .error .runFailure) := by
  unfold buildAndRun
  rw [hlang]
  refine ⟨rfl, fun h => ?_⟩
  rw [h]
  rfl

/-- Witness for C1 at a concrete failing run. -/
theorem C1_adapter_once_and_failure_raises_witness :
    (buildAndRun samplePaths sampleReq [] false).adapterCalls.length = 1 ∧
    ((false : Bool) = false →
      (buildAndRun samplePaths sampleReq [] false).result
        = .error .runFailure) :=
  C1_adapter_once_and_failure_raises samplePaths sampleReq [] false .python
    (by decide)

/-- Claim C2: for every compiled-project run, for both values of the
release flag, the command sequence handed to the adapter contains a build
command (it starts with `dotnet build`), and that command contains the
substring `Configuration=Release` iff `release` is true, else it contains
`Configuration=Debug`. -/
theorem C2_build_configuration (paths : ResolvedPaths) (req : RunRequest)
    (fs : FS) (adapterResult : Bool)
    (hcs : detectLanguage req.entryFile = some .csharp) :
    ∀ plan ∈ (buildAndRun paths req fs adapterResult).adapterCalls,
      ∃ cmd ∈ plan.commands,
        strStarts "dotnet build" cmd = true ∧
        strIn "Configuration=Release" cmd = req.release ∧
        strIn "Configuration=Debug" cmd = !req.release := by
  intro plan hplan
  unfold buildAndRun at hplan
  rw [hcs] at hplan
  simp only [List.mem_singleton] at hplan
  subst hplan
  simp only [buildPlan, generateCommands]
  refine ⟨buildCommand req.release, List.mem_cons_self _ _, ?_, ?_, ?_⟩ <;>
    cases hr : req.release <;> decide

/-- Witness for C2 at a concrete compiled-project run. -/
theorem C2_build_configuration_witness :
    ∃ cmd ∈ (buildPlan samplePaths sampleReqCs .csharp).commands,
      strStarts "dotnet build" cmd = true ∧
      strIn "Configuration=Release" cmd = sampleReqCs.release ∧
      strIn "Configuration=Debug" cmd = !sampleReqCs.release :=
  C2_build_configuration samplePaths sampleReqCs [] true (by decide)
    (buildPlan samplePaths sampleReqCs .csharp) (by decide)

/-- Claim C4: for every run — any language, run mode, debugging method,
release and detach flags — the volume mapping passed to the adapter binds
the CLI data directory to `/Lean/Data` and the output directory to
`/Results`. -/
theorem C4_data_and_output_volumes (paths : ResolvedPaths)
    (req : RunRequest) (fs : FS) (adapterResult : Bool) :
    ∀ plan ∈ (buildAndRun paths req fs adapterResult).adapterCalls,
      Volume.mk paths.dataDir "/Lean/Data" "rw" ∈ plan.volumes ∧
      Volume.mk req.outputDirectory "/Results" "rw" ∈ plan.volumes := by
  intro plan hplan
  unfold buildAndRun at hplan
  cases hl : detectLanguage req.entryFile with
  | none => rw [hl] at hplan; cases hplan
  | some lang =>
      rw [hl] at hplan
      simp only [List.mem_singleton] at hplan
      subst hplan
      constructor <;> simp [buildPlan, assembleVolumes]

/-- Witness for C4 at a concrete run. -/
theorem C4_data_and_output_volumes_witness :
    Volume.mk samplePaths.dataDir "/Lean/Data" "rw"
        ∈ (buildPlan samplePaths sampleReq .python).volumes ∧
    Volume.mk sampleReq.outputDirectory "/Results" "rw"
        ∈ (buildPlan samplePaths sampleReq .python).volumes :=
  C4_data_and_output_volumes samplePaths sampleReq [] true
    (buildPlan samplePaths sampleReq .python) (by decide)

/-- Claim C5: for every interpreted-project run the volume mapping binds
the project root to the fixed container path `/LeanCLI` and the project's
`storage` subdirectory to `/Storage`; for every compiled-project run
neither of these two bindings is present. -/
theorem C5_project_and_storage_volumes (paths : ResolvedPaths)
    (req : RunRequest) (fs : FS) (adapterResult : Bool) (lang : Language)
    (hlang : detectLanguage req.entryFile = some lang) :
    ∀ plan ∈ (buildAndRun paths req fs adapterResult).adapterCalls,
      (lang = .python →
        Volume.mk paths.projectDir "/LeanCLI" "rw" ∈ plan.volumes ∧
        Volume.mk (paths.projectDir.joinRel ["storage"]) "/Storage" "rw"
          ∈ plan.volumes) ∧
      (lang = .csharp →
        ∀ v ∈ plan.volumes, v.bind ≠ "/LeanCLI" ∧ v.bind ≠ "/Storage") := by
  intro plan hplan
  unfold buildAndRun at hplan
  rw [hlang] at hplan
  simp only [List.mem_singleton] at hplan
  subst hplan
  constructor
  · intro hpy
    subst hpy
    constructor <;> simp [buildPlan, assembleVolumes]
  · intro hcs
    subst hcs
    intro v hv
    simp [buildPlan, assembleVolumes] at hv
    rcases hv with hv | hv <;> subst hv <;> exact ⟨by simp, by simp⟩

/-- Witness for C5 at a concrete interpreted-project run and a concrete
compiled-project run. -/
theorem C5_project_and_storage_volumes_witness :
    (Volume.mk samplePaths.projectDir "/LeanCLI" "rw"
        ∈ (buildPlan samplePaths sampleReq .python).volumes ∧
      Volume.mk (samplePaths.projectDir.joinRel ["storage"]) "/Storage" "rw"
        ∈ (buildPlan samplePaths sampleReq .python).volumes) ∧
    (∀ v ∈ (buildPlan samplePaths sampleReqCs .csharp).volumes,
      v.bind ≠ "/LeanCLI" ∧ v.bind ≠ "/Storage") :=
  ⟨(C5_project_and_storage_volumes samplePaths sampleReq [] true .python
      (by decide) (buildPlan samplePaths sampleReq .python) (by decide)).1 rfl,
   (C5_project_and_storage_volumes samplePaths sampleReqCs [] true .csharp
      (by decide) (buildPlan samplePaths sampleReqCs .csharp) (by decide)).2 rfl⟩

/-- Claim C6: for every interpreted-project run executed from a copied
snapshot directory, the command sequence contains a byte-compile command
and the engine launch command (the fixed native-launcher invocation,
never the user's script), and the byte-compile command precedes the
launch command in the ordered sequence. -/
theorem C6_byte_compile_precedes_launch (paths : ResolvedPaths)
    (req : RunRequest) (fs : FS) (adapterResult : Bool)
    (hpy : detectLanguage req.entryFile = some .python)
    (hsnap : req.fromSnapshot = true) :
    ∀ plan ∈ (buildAndRun paths req fs adapterResult).adapterCalls,
      ∃ i j : Fin plan.commands.length, (i : ℕ) < (j : ℕ) ∧
        strIn "python -m compileall" (plan.commands.get i) = true ∧
        plan.commands.get j = launchCommand ∧
        strEnds "dotnet QuantConnect.Lean.Launcher.dll"
          (plan.commands.get j) = true := by
  intro plan hplan
  unfold buildAndRun at hplan
  rw [hpy] at hplan
  simp only [List.mem_singleton] at hplan
  subst hplan
  have hcmd : (buildPlan paths req .python).commands
      = [byteCompileCommand, launchCommand] := by
    simp [buildPlan, generateCommands, hsnap]
  rw [hcmd]
  decide

/-- Witness for C6 at a concrete interpreted-project snapshot run. -/
theorem C6_byte_compile_precedes_launch_witness :
    ∃ i j : Fin (buildPlan samplePaths sampleReq .python).commands.length,
      (i : ℕ) < (j : ℕ) ∧
      strIn "python -m compileall"
        ((buildPlan samplePaths sampleReq .python).commands.get i) = true ∧
      (buildPlan samplePaths sampleReq .python).commands.get j
        = launchCommand ∧
      strEnds "dotnet QuantConnect.Lean.Launcher.dll"
        ((buildPlan samplePaths sampleReq .python).commands.get j) = true :=
  C6_byte_compile_precedes_launch samplePaths sampleReq [] true (by decide)
    (by decide) (buildPlan samplePaths sampleReq .python) (by decide)

/-- Claim C3: for every auxiliary file key present in the merged
configuration, the produced single-file mount targets `/Files/<key>`, and
its source is the configured path itself when that path is absolute, else
the key-specific base directory (the data directory's `symbol-properties`
subfolder for the symbol-map key; the CLI root directory for the
transaction-log key) joined with the relative path. -/
theorem C3_aux_file_mounts (paths : ResolvedPaths) (req : RunRequest)
    (fs : FS) (adapterResult : Bool) (lang : Language)
    (hlang : detectLanguage req.entryFile = some lang) :
    ∀ plan ∈ (buildAndRun paths req fs adapterResult).adapterCalls,
      (∀ p, mergedLookup paths.baseConfig req.configOverlay symbolMapKey
          = some p →
        Mount.mk
          (if p.absolute then p
           else (paths.dataDir.joinRel ["symbol-properties"]).joinRel p.parts)
          ("/Files/" ++ symbolMapKey) ∈ plan.mounts) ∧
      (∀ p, mergedLookup paths.baseConfig req.configOverlay transactionLogKey
          = some p →
        Mount.mk
          (if p.absolute then p else paths.cliRootDir.joinRel p.parts)
          ("/Files/" ++ transactionLogKey) ∈ plan.mounts) := by
  intro plan hplan
  unfold buildAndRun at hplan
  rw [hlang] at hplan
  simp only [List.mem_singleton] at hplan
  subst hplan
  constructor
  · intro p hp
    simp [buildPlan, auxFileMounts, auxFileKeys, hp, auxBaseDir,
          HostPath.resolveAgainst]
  · intro p hp
    cases hq : mergedLookup paths.baseConfig req.configOverlay symbolMapKey <;>
      (simp [buildPlan, auxFileMounts, auxFileKeys, hq, auxBaseDir,
             HostPath.resolveAgainst, symbolMapKey, transactionLogKey];
       exact Or.inr ⟨p, hp, rfl⟩)

/-- Witness for C3 at a concrete run whose overlay configures a relative
transaction-log path. -/
theorem C3_aux_file_mounts_witness :
    Mount.mk
      (if (HostPath.mk false ["transaction-log.log"]).absolute
       then HostPath.mk false ["transaction-log.log"]
       else samplePaths.cliRootDir.joinRel
              (HostPath.mk false ["transaction-log.log"]).parts)
      ("/Files/" ++ transactionLogKey)
      ∈ (buildPlan samplePaths sampleReq .python).mounts :=
  (C3_aux_file_mounts samplePaths sampleReq [] true .python (by decide)
    (buildPlan samplePaths sampleReq .python) (by decide)).2
    (HostPath.mk false ["transaction-log.log"]) (by decide)

/-- Claim C7: output directory provisioning is idempotent — after every
successful `buildAndRun` the output directory and its `code` subdirectory
exist and the copied project sources are byte-identical to the originals,
and invoking `buildAndRun` again on the resulting filesystem (the output
directory now existing) succeeds and leaves the filesystem unchanged: no
failure and no duplicated content. -/
theorem C7_provisioning_idempotent (paths : ResolvedPaths)
    (req : RunRequest) (fs : FS) (lang : Language)
    (hlang : detectLanguage req.entryFile = some lang)
    (hnd : (req.projectFiles.map (fun rc => rc.1)).Nodup)
    (hne : ∀ rc ∈ req.projectFiles, rc.1 ≠ []) :
    (buildAndRun paths req fs true).result = .ok () ∧
    (∃ e, (buildAndRun paths req fs true).fs.lookup req.outputDirectory
        = some e) ∧
    (∃ e, (buildAndRun paths req fs true).fs.lookup
        (req.outputDirectory.joinRel ["code"]) = some e) ∧
    (∀ rel c, (rel, c) ∈ req.projectFiles →
      (buildAndRun paths req fs true).fs.lookup
        ((req.outputDirectory.joinRel ["code"]).joinRel rel)
        = some (.file c)) ∧
    (buildAndRun paths req (buildAndRun paths req fs true).fs true).result
      = .ok () ∧
    (buildAndRun paths req (buildAndRun paths req fs true).fs true).fs
      = (buildAndRun paths req fs true).fs := by
  have hrun : ∀ g : FS, buildAndRun paths req g true
      = ⟨.ok (), provisionStorage paths lang
          (provisionOutput req.outputDirectory req.projectFiles g),
         [buildPlan paths req lang]⟩ := by
    intro g
    unfold buildAndRun
    rw [hlang]
    rfl
  have hne_out : ∀ rc ∈ req.projectFiles,
      (req.outputDirectory.joinRel ["code"]).joinRel rc.1
        ≠ req.outputDirectory := by
    intro rc _
    apply HostPath.ne_of_parts_length
    simp only [HostPath.joinRel, List.length_append, List.length_singleton]
    omega
  have hne_code : ∀ rc ∈ req.projectFiles,
      (req.outputDirectory.joinRel ["code"]).joinRel rc.1
        ≠ req.outputDirectory.joinRel ["code"] := by
    intro rc hrc
    apply HostPath.ne_of_parts_length
    have h0 : rc.1.length ≠ 0 :=
      fun hc => hne rc hrc (List.length_eq_zero.mp hc)
    simp only [HostPath.joinRel, List.length_append, List.length_singleton]
    omega
  have hinj : Function.Injective
      (fun rel => (req.outputDirectory.joinRel ["code"]).joinRel rel) := by
    intro a b hab
    have h2 := congrArg HostPath.parts hab
    simpa [HostPath.joinRel] using h2
  have tnd : (req.projectFiles.map
      (fun rc => (req.outputDirectory.joinRel ["code"]).joinRel rc.1)).Nodup := by
    have hmm : req.projectFiles.map
        (fun rc => (req.outputDirectory.joinRel ["code"]).joinRel rc.1)
        = (req.projectFiles.map (fun rc => rc.1)).map
            (fun rel => (req.outputDirectory.joinRel ["code"]).joinRel rel) := by
      rw [List.map_map]
      rfl
    rw [hmm]
    exact List.Nodup.map hinj hnd
  have hout1 : ∃ e,
      (provisionOutput req.outputDirectory req.projectFiles fs).lookup
        req.outputDirectory = some e := by
    unfold provisionOutput
    rw [copyFiles_lookup_not_target _ _ _ _ hne_out]
    obtain ⟨e, he⟩ := FS.lookup_createDir_self fs req.outputDirectory
    exact ⟨e, FS.lookup_createDir_of_some _ _ _ _ he⟩
  have hcode1 : ∃ e,
      (provisionOutput req.outputDirectory req.projectFiles fs).lookup
        (req.outputDirectory.joinRel ["code"]) = some e := by
    unfold provisionOutput
    rw [copyFiles_lookup_not_target _ _ _ _ hne_code]
    exact FS.lookup_createDir_self _ _
  have hfiles1 : ∀ rel c, (rel, c) ∈ req.projectFiles →
      (provisionOutput req.outputDirectory req.projectFiles fs).lookup
        ((req.outputDirectory.joinRel ["code"]).joinRel rel)
        = some (.file c) := by
    intro rel c hmem
    unfold provisionOutput
    exact copyFiles_lookup_mem _ _ _ _ _ tnd hmem
  have hpres : ∀ (g : FS) (q : HostPath) (e : Entry), g.lookup q = some e →
      (provisionStorage paths lang g).lookup q = some e := by
    intro g q e hq
    cases lang with
    | python => exact FS.lookup_createDir_of_some _ _ _ _ hq
    | csharp => exact hq
  have hout2 : ∃ e,
      (provisionStorage paths lang
        (provisionOutput req.outputDirectory req.projectFiles fs)).lookup
          req.outputDirectory = some e := by
    obtain ⟨e, he⟩ := hout1
    exact ⟨e, hpres _ _ _ he⟩
  have hcode2 : ∃ e,
      (provisionStorage paths lang
        (provisionOutput req.outputDirectory req.projectFiles fs)).lookup
          (req.outputDirectory.joinRel ["code"]) = some e := by
    obtain ⟨e, he⟩ := hcode1
    exact ⟨e, hpres _ _ _ he⟩
  have hfiles2 : ∀ rel c, (rel, c) ∈ req.projectFiles →
      (provisionStorage paths lang
        (provisionOutput req.outputDirectory req.projectFiles fs)).lookup
          ((req.outputDirectory.joinRel ["code"]).joinRel rel)
        = some (.file c) := by
    intro rel c hmem
    exact hpres _ _ _ (hfiles1 rel c hmem)
  have hprov2 : ∀ g : FS,
      (∃ e, g.lookup req.outputDirectory = some e) →
      (∃ e, g.lookup (req.outputDirectory.joinRel ["code"]) = some e) →
      (∀ rel c, (rel, c) ∈ req.projectFiles →
        g.lookup ((req.outputDirectory.joinRel ["code"]).joinRel rel)
          = some (.file c)) →
      provisionOutput req.outputDirectory req.projectFiles g = g := by
    rintro g ⟨e1, he1⟩ ⟨e2, he2⟩ hf
    unfold provisionOutput
    rw [FS.createDir_of_lookup_some _ _ _ he1,
        FS.createDir_of_lookup_some _ _ _ he2]
    exact copyFiles_of_lookup _ _ _ (fun rc hrc => hf rc.1 rc.2 hrc)
  have hstor2 : provisionStorage paths lang
      (provisionStorage paths lang
        (provisionOutput req.outputDirectory req.projectFiles fs))
      = provisionStorage paths lang
          (provisionOutput req.outputDirectory req.projectFiles fs) := by
    cases lang with
    | csharp => rfl
    | python =>
        obtain ⟨e, he⟩ := FS.lookup_createDir_self
          (provisionOutput req.outputDirectory req.projectFiles fs)
          (paths.projectDir.joinRel ["storage"])
        exact FS.createDir_of_lookup_some _ _ _ he
  simp only [hrun]
  exact ⟨by trivial, hout2, hcode2, hfiles2, by trivial,
    by rw [hprov2 _ hout2 hcode2 hfiles2, hstor2]⟩

/-- Witness for C7 at a concrete run starting from an empty filesystem. -/
theorem C7_provisioning_idempotent_witness :
    (buildAndRun samplePaths sampleReq [] true).result = .ok () ∧
    (∃ e, (buildAndRun samplePaths sampleReq [] true).fs.lookup
        sampleReq.outputDirectory = some e) ∧
    (∃ e, (buildAndRun samplePaths sampleReq [] true).fs.lookup
        (sampleReq.outputDirectory.joinRel ["code"]) = some e) ∧
    (∀ rel c, (rel, c) ∈ sampleReq.projectFiles →
      (buildAndRun samplePaths sampleReq [] true).fs.lookup
        ((sampleReq.outputDirectory.joinRel ["code"]).joinRel rel)
        = some (.file c)) ∧
    (buildAndRun samplePaths sampleReq
        (buildAndRun samplePaths sampleReq [] true).fs true).result
      = .ok () ∧
    (buildAndRun samplePaths sampleReq
        (buildAndRun samplePaths sampleReq [] true).fs true).fs
      = (buildAndRun samplePaths sampleReq [] true).fs :=
  C7_provisioning_idempotent samplePaths sampleReq [] .python (by decide)
    (by decide) (by decide)

end LeanCLI
